import Mathlib

/-!
Shallow embedding of the rs-tzfile TZif decoder and query layer (src/lib.rs).

Modelling conventions:
* Byte buffers are `List Nat` holding file bytes; multi-byte fields are read
  big-endian and reinterpreted in two's complement exactly as the source does.
* Rust strings are represented as lists of Unicode code points (`List Nat`);
  the abbreviation blob goes through a faithful UTF-8 decoder, matching
  `std::str::from_utf8`.
* `DateTime<Utc>` values are represented by their Unix timestamp (`Int`).
  The chrono constructors are panic-aware: `Utc.timestamp(t, 0)` panics
  outside chrono's representable range (`utcTimestamp`),
  `Utc.ymd(y, _, _)` panics for years outside chrono's supported range
  (`utcYmdTimestamp`), and `FixedOffset::east` panics for offsets not
  strictly within one day (`fixedOffsetEast`), each modelled with chrono's
  exact documented bounds.  Display-only fields of the source `Tzinfo`
  struct that exist purely as chrono formatting of these instants
  (`datetime`, `week_number`) are not carried.
* A Rust panic (out-of-range sliceB / index access) is the explicit outcome
  `POutcome.crash`; fallible code yields `POutcome.err`.
* The wall clock (`Utc::now`) is threaded in explicitly: `nowYear` is the
  calendar year of "now" (the `d.format("%Y")` round trip in the source) and
  `now` the current instant.
* The zone-name path (`filename.split(separator)` in the source) is passed
  already split into components.
-/

inductive TzError where
  | InvalidTimezone
  | InvalidMagic
  | BadUtf8String
  | UnsupportedFormat
  | NoData
  | ParseError
  | EmptyString
  | JsonError
deriving DecidableEq

/-- Outcome of running a piece of Rust code: normal value, `Err(_)` value, or
panic (`crash`). -/
inductive POutcome (α : Type) where
  | ok : α → POutcome α
  | err : TzError → POutcome α
  | crash : POutcome α
deriving DecidableEq

def POutcome.bind : POutcome α → (α → POutcome β) → POutcome β
  | .ok a, f => f a
  | .err e, _ => .err e
  | .crash, _ => .crash

def POutcome.map (f : α → β) : POutcome α → POutcome β
  | .ok a => .ok (f a)
  | .err e => .err e
  | .crash => .crash

def POutcome.isOk : POutcome α → Bool
  | .ok _ => true
  | _ => false

/-- Big-endian interpretation of a byte list (`byteorder::BE`). -/
def readBE (l : List Nat) : Nat := l.foldl (fun a b => a * 256 + b) 0

/-- Two's-complement reinterpretation of a `w`-bit unsigned value. -/
def toSigned (w : Nat) (n : Nat) : Int :=
  if n < 2 ^ (w - 1) then (n : Int) else (n : Int) - 2 ^ w

/-- Rust `as usize` applied to an `i32` on a 64-bit target: sign-extend, then
reinterpret modulo 2^64. -/
def usizeOfI32 (i : Int) : Nat := (i % (2 : Int) ^ 64).toNat

/-- `&buffer[a..b]`: panics unless `a ≤ b ∧ b ≤ len`. -/
def sliceB (buf : List Nat) (a b : Nat) : POutcome (List Nat) :=
  if a ≤ b ∧ b ≤ buf.length then .ok ((buf.drop a).take (b - a)) else .crash

/-- `buffer[i]` on a byte buffer: panics when out of range. -/
def idx (buf : List Nat) (i : Nat) : POutcome Nat :=
  if i < buf.length then .ok (buf.getD i 0) else .crash

/-- `v[i]` on a vector: panics when out of range. -/
def idxP (l : List α) (i : Nat) : POutcome α :=
  match l[i]? with
  | some x => .ok x
  | none => .crash

/-- `chunks_exact(n)`, written with structural fuel so it evaluates by kernel
reduction; each step consumes `n ≥ 1` elements, so `l.length` steps always
suffice. -/
def chunksExactAux (fuel n : Nat) (l : List α) : List (List α) :=
  match fuel with
  | 0 => []
  | fuel + 1 =>
    if 0 < n ∧ n ≤ l.length then l.take n :: chunksExactAux fuel n (l.drop n) else []

/-- `chunks_exact(n)`: maximal list of consecutive `n`-element chunks, the
remainder dropped. -/
def chunksExact (n : Nat) (l : List α) : List (List α) := chunksExactAux l.length n l

/-- Decode one UTF-8 scalar from the front of a byte list: the code point and
the remaining bytes, or `none` on an invalid or truncated sequence (lead bytes
`0xC0`/`0xC1` and `≥ 0xF5` are invalid; continuation bytes are `0x80..0xBF`;
the first continuation byte is range-restricted to exclude overlong forms and
surrogates, as in `std::str::from_utf8`). -/
def utf8Step : List Nat → Option (Nat × List Nat)
  | [] => none
  | b0 :: rest =>
    if b0 < 0x80 then some (b0, rest)
    else if b0 < 0xC2 then none
    else if b0 < 0xE0 then
      match rest with
      | b1 :: rest2 =>
        if b1 < 0x80 ∨ 0xC0 ≤ b1 then none
        else some ((b0 - 0xC0) * 0x40 + (b1 - 0x80), rest2)
      | [] => none
    else if b0 < 0xF0 then
      match rest with
      | b1 :: b2 :: rest3 =>
        if b1 < (if b0 = 0xE0 then 0xA0 else 0x80) ∨ (if b0 = 0xED then 0xA0 else 0xC0) ≤ b1
            ∨ b2 < 0x80 ∨ 0xC0 ≤ b2 then none
        else some ((b0 - 0xE0) * 0x1000 + (b1 - 0x80) * 0x40 + (b2 - 0x80), rest3)
      | _ => none
    else if b0 < 0xF5 then
      match rest with
      | b1 :: b2 :: b3 :: rest4 =>
        if b1 < (if b0 = 0xF0 then 0x90 else 0x80) ∨ (if b0 = 0xF4 then 0x90 else 0xC0) ≤ b1
            ∨ b2 < 0x80 ∨ 0xC0 ≤ b2 ∨ b3 < 0x80 ∨ 0xC0 ≤ b3 then none
        else some ((b0 - 0xF0) * 0x40000 + (b1 - 0x80) * 0x1000 + (b2 - 0x80) * 0x40
          + (b3 - 0x80), rest4)
      | _ => none
    else none

/-- The decoding loop with structural fuel: each scalar consumes at least one
byte, so `l.length` steps always suffice (the `0, _ :: _` case is
unreachable when the fuel is at least the byte count). -/
def utf8DecodeAux (fuel : Nat) (l : List Nat) : Option (List Nat) :=
  match fuel, l with
  | _, [] => some []
  | 0, _ :: _ => none
  | fuel + 1, b0 :: rest =>
    match utf8Step (b0 :: rest) with
    | none => none
    | some (c, r) => (utf8DecodeAux fuel r).map (fun cs => c :: cs)

/-- Faithful UTF-8 decoder (`std::str::from_utf8` followed by `.chars()`):
code-point sequence of the byte list, or `none` on any invalid byte. -/
def utf8Decode (l : List Nat) : Option (List Nat) := utf8DecodeAux l.length l

/-- Rust `str::split('\0')`: always yields at least one segment. -/
def splitOnNul : List Nat → List (List Nat)
  | [] => [[]]
  | b :: rest =>
    if b = 0 then [] :: splitOnNul rest
    else
      match splitOnNul rest with
      | [] => [[b]]
      | s :: ss => (b :: s) :: ss

/-- Code points of a string literal, for writing concrete inputs. -/
def strCp (s : String) : List Nat := s.data.map Char.toNat

/-- TZif magic four bytes (`0x545A6966`). -/
def MAGIC : Nat := 0x545A6966

/-- Header length (`0x2C`). -/
def HEADER_LEN : Nat := 0x2C

/-- The corrupt-placeholder timestamp filtered by `transition_times(None)`:
`0xF800000000000000` as an `i64`, i.e. `-576460752303423488`. -/
def SENTINEL : Int := -576460752303423488

structure Header where
  tzh_ttisgmtcnt : Nat
  tzh_ttisstdcnt : Nat
  tzh_leapcnt : Nat
  tzh_timecnt : Nat
  tzh_typecnt : Nat
  tzh_charcnt : Nat
  v2_header_start : Nat
deriving DecidableEq

structure Ttinfo where
  tt_gmtoff : Int
  tt_isdst : Nat
  tt_abbrind : Nat
deriving DecidableEq

structure Tz where
  tzh_timecnt_data : List Int
  tzh_timecnt_indices : List Nat
  tzh_typecnt : List Ttinfo
  tz_abbr : List (List Nat)
  name : List Nat
deriving DecidableEq

structure TransitionTime where
  time : Int
  utc_offset : Int
  isdst : Bool
  abbreviation : List Nat
deriving DecidableEq

structure Tzinfo where
  timezone : List Nat
  utc_datetime : Int
  dst_from : Option Int
  dst_until : Option Int
  dst_period : Bool
  raw_offset : Int
  dst_offset : Int
  utc_offset : Int
  abbreviation : List Nat
deriving DecidableEq

/-- `BE::read_i32(&buffer[off..off+4]) as usize`. -/
def readI32usize (buf : List Nat) (off : Nat) : POutcome Nat :=
  (sliceB buf off (off + 4)).bind fun b => .ok (usizeOfI32 (toSigned 32 (readBE b)))

/-- The count-reading tail of `Tz::parse_header`: the six first-pass counts
(used only to locate the 64-bit sub-header at `s`) followed by the six
authoritative second-pass counts. -/
def readHeaderCounts (buffer : List Nat) : POutcome Header :=
  (readI32usize buffer 0x14).bind fun tzh_ttisgmtcnt =>
  (readI32usize buffer 0x18).bind fun tzh_ttisstdcnt =>
  (readI32usize buffer 0x1C).bind fun tzh_leapcnt =>
  (readI32usize buffer 0x20).bind fun tzh_timecnt =>
  (readI32usize buffer 0x24).bind fun tzh_typecnt =>
  (readI32usize buffer 0x28).bind fun tzh_charcnt =>
  let s := tzh_timecnt * 5 + tzh_typecnt * 6 + tzh_leapcnt * 8 + tzh_charcnt
    + tzh_ttisstdcnt + tzh_ttisgmtcnt + 44
  (readI32usize buffer (s + 0x14)).bind fun g2 =>
  (readI32usize buffer (s + 0x18)).bind fun s2 =>
  (readI32usize buffer (s + 0x1C)).bind fun l2 =>
  (readI32usize buffer (s + 0x20)).bind fun t2 =>
  (readI32usize buffer (s + 0x24)).bind fun ty2 =>
  (readI32usize buffer (s + 0x28)).bind fun c2 =>
  .ok ⟨g2, s2, l2, t2, ty2, c2, s⟩

/-- `Tz::parse_header` from src/lib.rs. -/
def Tz.parse_header (buffer : List Nat) : POutcome Header :=
  (sliceB buffer 0 4).bind fun magicBytes =>
  if readBE magicBytes ≠ MAGIC then .err .InvalidMagic
  else (idx buffer 4).bind fun v =>
  if v ≠ 50 then .err .UnsupportedFormat
  else readHeaderCounts buffer

/-- Translation of a raw abbreviation byte-offset into a stored index:
`abbrs.chars().take(offset).filter(|x| *x == '\0').count() as u8`.
Note this counts NUL characters among the first `offset` decoded characters
of the blob, and the `as u8` cast is the trailing `% 256`. -/
def abbrIndexOf (abbrs : List Nat) (offset : Nat) : Nat :=
  ((abbrs.take offset).count 0) % 256

/-- `Tz::parse_data` from src/lib.rs (the zone-name path argument is passed
already split on the separator). -/
def Tz.parse_data (buffer : List Nat) (header : Header) (path : List (List Nat)) :
    POutcome Tz :=
  let tzh_timecnt_len := header.tzh_timecnt * 9
  let tzh_typecnt_len := header.tzh_typecnt * 6
  let tzh_leapcnt_len := header.tzh_leapcnt * 12
  let tzh_charcnt_len := header.tzh_charcnt
  let tzh_timecnt_end := HEADER_LEN + header.v2_header_start + tzh_timecnt_len
  let tzh_typecnt_end := tzh_timecnt_end + tzh_typecnt_len
  let tzh_leapcnt_end := tzh_typecnt_end + tzh_leapcnt_len
  let tzh_charcnt_end := tzh_leapcnt_end + tzh_charcnt_len
  (sliceB buffer (HEADER_LEN + header.v2_header_start)
      (HEADER_LEN + header.v2_header_start + header.tzh_timecnt * 8)).bind fun dataBytes =>
  let tzh_timecnt_data := (chunksExact 8 dataBytes).map (fun tt => toSigned 64 (readBE tt))
  (sliceB buffer (HEADER_LEN + header.v2_header_start + header.tzh_timecnt * 8)
      tzh_timecnt_end).bind fun tzh_timecnt_indices =>
  (sliceB buffer tzh_leapcnt_end tzh_charcnt_end).bind fun abbrBytes =>
  match utf8Decode abbrBytes with
  | none => .err .BadUtf8String
  | some abbrs =>
    (sliceB buffer tzh_timecnt_end tzh_typecnt_end).bind fun ttiBytes =>
    let tzh_typecnt := (chunksExact 6 ttiBytes).map (fun tti =>
      { tt_gmtoff := toSigned 32 (readBE (tti.take 4))
        tt_isdst := tti.getD 4 0
        tt_abbrind := abbrIndexOf abbrs (tti.getD 5 0) : Ttinfo })
    let segs := splitOnNul abbrs
    if segs.isEmpty then .err .EmptyString
    else
      let tz_abbr := segs.dropLast
      if path.length < 3 then .err .InvalidTimezone
      else
        let tzc := path.drop (path.length - 2)
        let timezone :=
          if tzc.getD 0 [] ≠ strCp "zoneinfo"
          then tzc.getD 0 [] ++ strCp "/" ++ tzc.getD 1 []
          else tzc.getD 1 []
        .ok ⟨tzh_timecnt_data, tzh_timecnt_indices, tzh_typecnt, tz_abbr, timezone⟩

/-- `Tz::new` minus the file read: header pass then data pass. -/
def Tz.decode (buffer : List Nat) (path : List (List Nat)) : POutcome Tz :=
  (Tz.parse_header buffer).bind fun header => Tz.parse_data buffer header path

/-- `Utc.ymd(y, m, d)` day count since 1970-01-01 in the proleptic Gregorian
calendar (floor-division era decomposition). -/
def daysFromCivil (y : Int) (m : Nat) (d : Nat) : Int :=
  let yy := if m ≤ 2 then y - 1 else y
  let era := Int.fdiv yy 400
  let yoe := (yy - era * 400).toNat
  let mp := (m + 9) % 12
  let doy := (153 * mp + 2) / 5 + d - 1
  let doe := yoe * 365 + yoe / 4 - yoe / 100 + doy
  era * 146097 + (doe : Int) - 719468

/-- The timestamp of the proleptic-Gregorian date `y-m-d` at 00:00:00 UTC
(the value `Utc.ymd(y, m, d).and_hms(0, 0, 0).timestamp()` yields when it
does not panic). -/
def tsOf (y : Int) (m : Nat) (d : Nat) : Int := 86400 * daysFromCivil y m d

/-- chrono's smallest supported calendar year (`i32::MIN >> 13`): dates
before it cannot be constructed. -/
def CHRONO_MIN_YEAR : Int := -262144

/-- chrono's largest supported calendar year (`i32::MAX >> 13`). -/
def CHRONO_MAX_YEAR : Int := 262143

/-- The smallest Unix timestamp chrono can represent
(`NaiveDateTime::MIN.timestamp()`, that is -8334632851200). -/
def CHRONO_MIN_TS : Int := tsOf CHRONO_MIN_YEAR 1 1

/-- The largest Unix timestamp chrono can represent
(`NaiveDateTime::MAX.timestamp()`, that is 8210298412799). -/
def CHRONO_MAX_TS : Int := tsOf CHRONO_MAX_YEAR 12 31 + 86399

/-- `Utc.timestamp(t, 0)`: the instant itself, panicking when `t` lies
outside chrono's representable range — the panic the source's own sentinel
patch comment documents ("chrono panics on an overflowing timestamp"). -/
def utcTimestamp (t : Int) : POutcome Int :=
  if CHRONO_MIN_TS ≤ t ∧ t ≤ CHRONO_MAX_TS then .ok t else .crash

/-- `Utc.ymd(y, m, d).and_hms(0, 0, 0).timestamp()` for the month/day pairs
the source uses (January 1 and December 31, always valid days): panics when
the year is outside chrono's supported range. -/
def utcYmdTimestamp (y : Int) (m d : Nat) : POutcome Int :=
  if CHRONO_MIN_YEAR ≤ y ∧ y ≤ CHRONO_MAX_YEAR then .ok (tsOf y m d) else .crash

/-- Rust `as i32` applied to an `isize`: two's-complement truncation
(`2^31 = 2147483648`, `2^32 = 4294967296`). -/
def asI32 (i : Int) : Int := (i + 2147483648) % 4294967296 - 2147483648

/-- `FixedOffset::east(secs)`: the offset itself, panicking unless it lies
strictly within one day (`-86400 < secs < 86400`), as chrono's `east`
does on out-of-bounds offsets. -/
def fixedOffsetEast (secs : Int) : POutcome Int :=
  if -86400 < secs ∧ secs < 86400 then .ok secs else .crash

/-- Building one `TransitionTime` for transition index `t`: the body of the
result-population loops of `transition_times`.  Panics when an index is out
of range (the source's `[]` indexing) or when the raw timestamp lies outside
chrono's representable range (`Utc.timestamp`). -/
def Tz.viewAt (tz : Tz) (t : Nat) : POutcome TransitionTime :=
  (idxP tz.tzh_timecnt_data t).bind fun rawTime =>
  (utcTimestamp rawTime).bind fun time =>
  (idxP tz.tzh_timecnt_indices t).bind fun i =>
  (idxP tz.tzh_typecnt i).bind fun tti =>
  (idxP tz.tz_abbr tti.tt_abbrind).bind fun ab =>
  .ok { time := time, utc_offset := tti.tt_gmtoff,
        isdst := tti.tt_isdst == 1, abbreviation := ab }

/-- Sequentially build a view per index, stopping at the first panic (the
`for t in 0..timechanges.len()` population loop). -/
def mapPO (f : α → POutcome β) : List α → POutcome (List β)
  | [] => .ok []
  | a :: l => (f a).bind fun b => (mapPO f l).map (fun bs => b :: bs)

/-- The explicit-year index scan of `transition_times`: one forward pass over
`0..len` pushing every index whose instant lies strictly inside
`(yearbeg, yearend)` and overwriting `nearest_timechange` (initially 0)
whenever the instant is before `yearbeg`. -/
def scanYear (data : List Int) (yearbeg yearend : Int) : List Nat × Nat :=
  (List.range data.length).foldl
    (fun a t =>
      (if yearbeg < data.getD t 0 ∧ data.getD t 0 < yearend then a.1 ++ [t] else a.1,
       if data.getD t 0 < yearbeg then t else a.2))
    ([], 0)

/-- The `None`-year index scan of `transition_times`: keeps every index whose
raw timestamp differs from the sentinel, never touching
`nearest_timechange`. -/
def scanAll (data : List Int) : List Nat × Nat :=
  (List.range data.length).foldl
    (fun a t => (if data.getD t 0 ≠ SENTINEL then a.1 ++ [t] else a.1, a.2))
    ([], 0)

/-- `Tz::transition_times` from src/lib.rs; `nowYear` is the current calendar
year that the source samples from `Utc::now()` when `y == Some(0)`. -/
def Tz.transition_times (tz : Tz) (nowYear : Int) (y : Option Int) :
    POutcome (List TransitionTime) :=
  if tz.tzh_timecnt_data.length = 0 then .err .NoData
  else
    (match y with
     | some y0 =>
       let y1 := if y0 = 0 then nowYear else y0
       (utcYmdTimestamp y1 1 1).bind fun yearbeg =>
       (utcYmdTimestamp y1 12 31).bind fun yearend =>
       .ok (scanYear tz.tzh_timecnt_data yearbeg yearend)
     | none => .ok (scanAll tz.tzh_timecnt_data)).bind fun scanned =>
    if scanned.1.length ≠ 0 then mapPO tz.viewAt scanned.1
    else (tz.viewAt scanned.2).map (fun v => [v])

/-- The body of `Tz::zoneinfo` once the current-year transitions are in hand:
the length-indexed state machine of src/lib.rs. -/
def Tz.zoneinfoFrom (tz : Tz) (now : Int) (p : List TransitionTime) : POutcome Tzinfo :=
  match p with
  | [t0, t1] =>
    let dst : Bool := decide (t0.time < now ∧ now < t1.time)
    (fixedOffsetEast (asI32 (if dst then t0.utc_offset else t1.utc_offset))).bind
      fun utc_offset =>
    .ok { timezone := tz.name, utc_datetime := now,
          dst_from := some t0.time, dst_until := some t1.time, dst_period := dst,
          raw_offset := t1.utc_offset, dst_offset := t0.utc_offset,
          utc_offset := utc_offset,
          abbreviation := if dst then t0.abbreviation else t1.abbreviation }
  | [t0] =>
    (fixedOffsetEast (asI32 t0.utc_offset)).bind fun utc_offset =>
    .ok { timezone := tz.name, utc_datetime := now, dst_from := none, dst_until := none,
          dst_period := false, raw_offset := t0.utc_offset, dst_offset := 0,
          utc_offset := utc_offset, abbreviation := t0.abbreviation }
  | [] =>
    (idxP tz.tzh_typecnt 0).bind fun t0 =>
    (fixedOffsetEast (asI32 t0.tt_gmtoff)).bind fun utc_offset =>
    .ok { timezone := tz.name, utc_datetime := now, dst_from := none, dst_until := none,
          dst_period := false, raw_offset := t0.tt_gmtoff, dst_offset := 0,
          utc_offset := utc_offset, abbreviation := tz.name }
  | _ => .err .NoData

/-- `Tz::zoneinfo` from src/lib.rs: queries the current year's transitions,
treating `NoData` as an empty set, then resolves the zone state. -/
def Tz.zoneinfo (tz : Tz) (now : Int) (nowYear : Int) : POutcome Tzinfo :=
  match tz.transition_times nowYear (some 0) with
  | .ok p => Tz.zoneinfoFrom tz now p
  | .err .NoData => Tz.zoneinfoFrom tz now []
  | .err e => .err e
  | .crash => .crash

/-! Spec-side (declarative) descriptions of the scan results, written from the
claims' words, to be compared with the imperative folds above. -/

/-- The transitions of year `y`: indices whose instant is strictly between
January 1, 00:00:00 UTC and December 31, 00:00:00 UTC of year `y`. -/
def yearWindow (tz : Tz) (y : Int) : List Nat :=
  (List.range tz.tzh_timecnt_data.length).filter
    (fun t => decide (tsOf y 1 1 < tz.tzh_timecnt_data.getD t 0 ∧
      tz.tzh_timecnt_data.getD t 0 < tsOf y 12 31))

/-- The nearest preceding transition: the last index in scan order whose
instant is before the year's start, defaulting to 0. -/
def nearestPreceding (tz : Tz) (y : Int) : Nat :=
  ((List.range tz.tzh_timecnt_data.length).filter
    (fun t => decide (tz.tzh_timecnt_data.getD t 0 < tsOf y 1 1))).getLastD 0

/-- Indices of the transitions whose timestamp is not the sentinel. -/
def nonSentinel (tz : Tz) : List Nat :=
  (List.range tz.tzh_timecnt_data.length).filter
    (fun t => decide (tz.tzh_timecnt_data.getD t 0 ≠ SENTINEL))

/-- The round-trip bounds check claimed by the spec: every abbreviation index
within the abbreviation list and every transition type index within the
local-time-type list. -/
def tzBoundsOk (z : Tz) : Bool :=
  z.tzh_typecnt.all (fun t => decide (t.tt_abbrind < z.tz_abbr.length)) &&
  z.tzh_timecnt_indices.all (fun i => decide (i < z.tzh_typecnt.length))

/-- Does an outcome report the `EmptyString` decode error? -/
def isErrEmptyString : POutcome α → Bool
  | .err .EmptyString => true
  | _ => false

/-! Pure extractors for the byte ranges `parse_data` slices out of the buffer,
used to state theorems about successful decodes. -/

def dataBytesOf (buf : List Nat) (h : Header) : List Nat :=
  (buf.drop (HEADER_LEN + h.v2_header_start)).take (h.tzh_timecnt * 8)

def idxBytesOf (buf : List Nat) (h : Header) : List Nat :=
  (buf.drop (HEADER_LEN + h.v2_header_start + h.tzh_timecnt * 8)).take h.tzh_timecnt

def ttiBytesOf (buf : List Nat) (h : Header) : List Nat :=
  (buf.drop (HEADER_LEN + h.v2_header_start + h.tzh_timecnt * 9)).take (h.tzh_typecnt * 6)

def blobOf (buf : List Nat) (h : Header) : List Nat :=
  (buf.drop (HEADER_LEN + h.v2_header_start + h.tzh_timecnt * 9 + h.tzh_typecnt * 6
    + h.tzh_leapcnt * 12)).take h.tzh_charcnt

def abbrsOf (buf : List Nat) (h : Header) : List Nat :=
  (utf8Decode (blobOf buf h)).getD []

/-! Concrete zones used as witness inputs. -/

def zSmall : Tz :=
  { tzh_timecnt_data := [100, 200]
    tzh_timecnt_indices := [0, 1]
    tzh_typecnt := [⟨7200, 1, 0⟩, ⟨3600, 0, 1⟩]
    tz_abbr := [strCp "CEST", strCp "CET"]
    name := strCp "Test" }

def zEmpty : Tz :=
  { tzh_timecnt_data := []
    tzh_timecnt_indices := []
    tzh_typecnt := [⟨-18000, 0, 0⟩]
    tz_abbr := [strCp "EST"]
    name := strCp "EST" }

def zMin : Tz :=
  { tzh_timecnt_data := [-9223372036854775808]
    tzh_timecnt_indices := [0]
    tzh_typecnt := [⟨0, 0, 0⟩]
    tz_abbr := [strCp "X"]
    name := strCp "X" }

def zSent : Tz :=
  { tzh_timecnt_data := [-576460752303423488, 50]
    tzh_timecnt_indices := [0, 0]
    tzh_typecnt := [⟨3600, 0, 0⟩]
    tz_abbr := [strCp "X"]
    name := strCp "X" }

/-- A zone whose first transition is the sentinel timestamp and whose second
is in 2019: for year 1900 the window is empty and the nearest preceding
transition is the sentinel one. -/
def zC1 : Tz :=
  { tzh_timecnt_data := [-576460752303423488, 1553990400]
    tzh_timecnt_indices := [0, 0]
    tzh_typecnt := [⟨3600, 0, 0⟩]
    tz_abbr := [strCp "X"]
    name := strCp "X" }

/-- A zone whose DST type carries a 90000-second UTC offset (within the
±93600 s the format allows, outside chrono's ±86400 s `FixedOffset`
bound). -/
def zBigOff : Tz :=
  { tzh_timecnt_data := [100, 200]
    tzh_timecnt_indices := [0, 1]
    tzh_typecnt := [⟨90000, 1, 0⟩, ⟨3600, 0, 1⟩]
    tz_abbr := [strCp "BIG", strCp "STD"]
    name := strCp "Test" }

/-! Concrete buffers used in counterexamples and witnesses.  Each is a minimal
well-formed V2 file: magic, version '2', zeroed first-pass counts (so the
64-bit sub-header starts at 44), second-pass counts at offsets 64..87
(timecnt = 1, typecnt = 1), one 8-byte timestamp 0, one type-index byte, one
6-byte type record, then the abbreviation blob. -/

def cpath : List (List Nat) := [strCp "usr", strCp "share", strCp "zoneinfo", strCp "Paris"]

/-- timecnt 1, typecnt 1, charcnt 5; type record abbreviation byte-offset 2;
blob C3 A9 00 41 00 = "é\0A\0" (a two-byte UTF-8 character before the NUL). -/
def c6buf : List Nat :=
  [84, 90, 105, 102, 50, 0, 0, 0, 0, 0, 0, 0, 0, 0, 0, 0, 0, 0, 0, 0,
   0, 0, 0, 0, 0, 0, 0, 0, 0, 0, 0, 0, 0, 0, 0, 0, 0, 0, 0, 0,
   0, 0, 0, 0, 0, 0, 0, 0, 0, 0, 0, 0, 0, 0, 0, 0, 0, 0, 0, 0,
   0, 0, 0, 0, 0, 0, 0, 0, 0, 0, 0, 0, 0, 0, 0, 0, 0, 0, 0, 1,
   0, 0, 0, 1, 0, 0, 0, 5, 0, 0, 0, 0, 0, 0, 0, 0, 0, 0, 0, 0,
   0, 0, 2, 195, 169, 0, 65, 0]

def c6blob : List Nat := [195, 169, 0, 65, 0]

def c6hdr : Header := ⟨0, 0, 0, 1, 1, 5, 44⟩

/-- timecnt 1, typecnt 1, charcnt 2; blob "AB" with no NUL terminator. -/
def c7buf : List Nat :=
  [84, 90, 105, 102, 50, 0, 0, 0, 0, 0, 0, 0, 0, 0, 0, 0, 0, 0, 0, 0,
   0, 0, 0, 0, 0, 0, 0, 0, 0, 0, 0, 0, 0, 0, 0, 0, 0, 0, 0, 0,
   0, 0, 0, 0, 0, 0, 0, 0, 0, 0, 0, 0, 0, 0, 0, 0, 0, 0, 0, 0,
   0, 0, 0, 0, 0, 0, 0, 0, 0, 0, 0, 0, 0, 0, 0, 0, 0, 0, 0, 1,
   0, 0, 0, 1, 0, 0, 0, 2, 0, 0, 0, 0, 0, 0, 0, 0, 0, 0, 0, 0,
   0, 0, 0, 65, 66]

/-- timecnt 1, typecnt 1, charcnt 2; transition type-index byte 7 (out of
range for a one-element type list); type record abbreviation byte-offset 2 on
blob "A\0" (so the stored index 1 equals the abbreviation-list length). -/
def c9buf : List Nat :=
  [84, 90, 105, 102, 50, 0, 0, 0, 0, 0, 0, 0, 0, 0, 0, 0, 0, 0, 0, 0,
   0, 0, 0, 0, 0, 0, 0, 0, 0, 0, 0, 0, 0, 0, 0, 0, 0, 0, 0, 0,
   0, 0, 0, 0, 0, 0, 0, 0, 0, 0, 0, 0, 0, 0, 0, 0, 0, 0, 0, 0,
   0, 0, 0, 0, 0, 0, 0, 0, 0, 0, 0, 0, 0, 0, 0, 0, 0, 0, 0, 1,
   0, 0, 0, 1, 0, 0, 0, 2, 0, 0, 0, 0, 0, 0, 0, 0, 7, 0, 0, 0,
   0, 0, 2, 65, 0]

def c9hdr : Header := ⟨0, 0, 0, 1, 1, 2, 44⟩

def c9tz : Tz := ⟨[0], [7], [⟨0, 0, 1⟩], [[65]], strCp "Paris"⟩

/-! Helper lemmas about the embedded primitives. -/

theorem splitOnNul_ne_nil (l : List Nat) : splitOnNul l ≠ [] := by
  cases l with
  | nil => simp [splitOnNul]
  | cons b rest =>
    simp only [splitOnNul]
    split
    · simp
    · cases h : splitOnNul rest <;> simp

theorem splitOnNul_isEmpty_false (l : List Nat) : (splitOnNul l).isEmpty = false := by
  have := splitOnNul_ne_nil l
  cases h : splitOnNul l with
  | nil => exact absurd h this
  | cons s ss => simp [List.isEmpty]

theorem splitOnNul_length (l : List Nat) : (splitOnNul l).length = l.count 0 + 1 := by
  induction l with
  | nil => simp [splitOnNul]
  | cons b rest ih =>
    simp only [splitOnNul]
    by_cases hb : b = 0
    · subst hb
      simp [List.count_cons, ih]
    · rw [if_neg hb]
      have hne := splitOnNul_ne_nil rest
      cases h : splitOnNul rest with
      | nil => exact absurd h hne
      | cons s ss =>
        rw [h] at ih
        simp only [List.length_cons] at ih ⊢
        rw [List.count_cons]
        simp [hb, ih]

theorem utf8DecodeAux_ascii (fuel : Nat) :
    ∀ (l : List Nat), l.length ≤ fuel → (∀ b ∈ l, b < 128) →
      utf8DecodeAux fuel l = some l := by
  induction fuel with
  | zero =>
    intro l hl _
    cases l with
    | nil => rfl
    | cons b rest => simp at hl
  | succ fuel ih =>
    intro l hl h
    cases l with
    | nil => rfl
    | cons b rest =>
      have hb : b < 128 := h b (by simp)
      have hstep : utf8Step (b :: rest) = some (b, rest) := by
        simp only [utf8Step]
        rw [if_pos hb]
      rw [utf8DecodeAux, hstep]
      show (utf8DecodeAux fuel rest).map (fun cs => b :: cs) = some (b :: rest)
      rw [ih rest (by simp at hl; omega) (fun x hx => h x (by simp [hx]))]
      rfl

theorem utf8Decode_ascii (l : List Nat) (h : ∀ b ∈ l, b < 128) :
    utf8Decode l = some l :=
  utf8DecodeAux_ascii l.length l le_rfl h

theorem sliceB_ok (buf : List Nat) (a b : Nat) (l : List Nat)
    (h : sliceB buf a b = .ok l) :
    l = (buf.drop a).take (b - a) ∧ a ≤ b ∧ b ≤ buf.length := by
  unfold sliceB at h
  split at h
  · cases h; exact ⟨rfl, ‹a ≤ b ∧ b ≤ buf.length›⟩
  · cases h

theorem sliceB_cases (buf : List Nat) (a b : Nat) :
    sliceB buf a b = .ok ((buf.drop a).take (b - a)) ∨ sliceB buf a b = .crash := by
  unfold sliceB
  split
  · exact Or.inl rfl
  · exact Or.inr rfl

theorem sliceB_not_err (buf : List Nat) (a b : Nat) (e : TzError) :
    sliceB buf a b ≠ .err e := by
  unfold sliceB; split <;> simp

theorem idx_cases (buf : List Nat) (i : Nat) :
    idx buf i = .ok (buf.getD i 0) ∨ idx buf i = .crash := by
  unfold idx; split
  · exact Or.inl rfl
  · exact Or.inr rfl

theorem readI32usize_cases (buf : List Nat) (off : Nat) :
    (∃ n, readI32usize buf off = .ok n) ∨ readI32usize buf off = .crash := by
  unfold readI32usize
  rcases sliceB_cases buf off (off + 4) with h | h <;> rw [h]
  · exact Or.inl ⟨_, rfl⟩
  · exact Or.inr rfl

theorem readI32usize_crash_of_short (buf : List Nat) (off : Nat)
    (h : buf.length < off + 4) : readI32usize buf off = .crash := by
  unfold readI32usize sliceB
  rw [if_neg (by omega)]
  rfl

theorem foldScan (P Q : Nat → Prop) [DecidablePred P] [DecidablePred Q]
    (l : List Nat) (acc : List Nat) (near : Nat) :
    l.foldl (fun a t => (if P t then a.1 ++ [t] else a.1, if Q t then t else a.2)) (acc, near)
      = (acc ++ l.filter (fun t => decide (P t)),
         (l.filter (fun t => decide (Q t))).getLastD near) := by
  induction l generalizing acc near with
  | nil => simp
  | cons b l ih =>
    rw [List.foldl_cons]
    show l.foldl _ (if P b then acc ++ [b] else acc, if Q b then b else near) = _
    by_cases hp : P b <;> by_cases hq : Q b
    · rw [if_pos hp, if_pos hq, ih, List.filter_cons, List.filter_cons,
        if_pos (decide_eq_true hp), if_pos (decide_eq_true hq), List.getLastD_cons,
        List.append_assoc, List.singleton_append]
    · rw [if_pos hp, if_neg hq, ih, List.filter_cons, List.filter_cons,
        if_pos (decide_eq_true hp), if_neg (by simp [hq]), List.append_assoc,
        List.singleton_append]
    · rw [if_neg hp, if_pos hq, ih, List.filter_cons, List.filter_cons,
        if_neg (by simp [hp]), if_pos (decide_eq_true hq), List.getLastD_cons]
    · rw [if_neg hp, if_neg hq, ih, List.filter_cons, List.filter_cons,
        if_neg (by simp [hp]), if_neg (by simp [hq])]

theorem foldScanKeep (P : Nat → Prop) [DecidablePred P]
    (l : List Nat) (acc : List Nat) (near : Nat) :
    l.foldl (fun a t => (if P t then a.1 ++ [t] else a.1, a.2)) (acc, near)
      = (acc ++ l.filter (fun t => decide (P t)), near) := by
  induction l generalizing acc with
  | nil => simp
  | cons b l ih =>
    rw [List.foldl_cons]
    show l.foldl _ (if P b then acc ++ [b] else acc, near) = _
    by_cases hp : P b
    · rw [if_pos hp, ih, List.filter_cons, if_pos (decide_eq_true hp), List.append_assoc,
        List.singleton_append]
    · rw [if_neg hp, ih, List.filter_cons, if_neg (by simp [hp])]

theorem chunksExactAux_sub (n : Nat) :
    ∀ (fuel : Nat) (l c : List α), c ∈ chunksExactAux fuel n l → ∀ x ∈ c, x ∈ l := by
  intro fuel
  induction fuel with
  | zero =>
    intro l c hc
    simp [chunksExactAux] at hc
  | succ fuel ih =>
    intro l c hc
    rw [chunksExactAux] at hc
    split at hc
    · rcases List.mem_cons.mp hc with rfl | hmem
      · exact fun x hx => List.take_subset n l hx
      · exact fun x hx => List.drop_subset n l (ih (l.drop n) c hmem x hx)
    · cases hc

theorem chunksExact_sub (n : Nat) (l : List α) (c : List α) (hc : c ∈ chunksExact n l) :
    ∀ x ∈ c, x ∈ l :=
  chunksExactAux_sub n l.length l c hc

theorem readChain_classify {β : Type} (buf : List Nat) (off : Nat) (k : Nat → POutcome β)
    (hk : ∀ n, k n = .crash ∨ ∃ b, k n = .ok b) :
    (readI32usize buf off).bind k = .crash ∨ ∃ b, (readI32usize buf off).bind k = .ok b := by
  rcases readI32usize_cases buf off with ⟨n, h⟩ | h <;> rw [h]
  · simpa [POutcome.bind] using hk n
  · simp [POutcome.bind]

theorem bind_isOk {α β : Type} (x : POutcome α) (k : α → POutcome β)
    (h : (x.bind k).isOk = true) : ∃ n, x = .ok n ∧ (k n).isOk = true := by
  cases x with
  | ok a => exact ⟨a, rfl, h⟩
  | err e => simp [POutcome.bind, POutcome.isOk] at h
  | crash => simp [POutcome.bind, POutcome.isOk] at h

/-- The count-reading tail either panics on a short buffer or succeeds. -/
theorem readHeaderCounts_classify (buf : List Nat) :
    readHeaderCounts buf = .crash ∨ ∃ h, readHeaderCounts buf = .ok h := by
  unfold readHeaderCounts
  apply readChain_classify; intro n1
  apply readChain_classify; intro n2
  apply readChain_classify; intro n3
  apply readChain_classify; intro n4
  apply readChain_classify; intro n5
  apply readChain_classify; intro n6
  dsimp only
  apply readChain_classify; intro m1
  apply readChain_classify; intro m2
  apply readChain_classify; intro m3
  apply readChain_classify; intro m4
  apply readChain_classify; intro m5
  apply readChain_classify; intro m6
  exact Or.inr ⟨_, rfl⟩

/-- `parse_header` can only panic, fail with `InvalidMagic` or
`UnsupportedFormat`, or succeed. -/
theorem parse_header_classify (buf : List Nat) :
    Tz.parse_header buf = .crash ∨ Tz.parse_header buf = .err .InvalidMagic ∨
    Tz.parse_header buf = .err .UnsupportedFormat ∨
    ∃ h, Tz.parse_header buf = .ok h := by
  unfold Tz.parse_header
  rcases sliceB_cases buf 0 4 with h1 | h1 <;> rw [h1]
  · simp only [POutcome.bind]
    split
    · exact Or.inr (Or.inl rfl)
    · rcases idx_cases buf 4 with h2 | h2 <;> rw [h2]
      · simp only [POutcome.bind]
        split
        · exact Or.inr (Or.inr (Or.inl rfl))
        · rcases readHeaderCounts_classify buf with hc | ⟨hh, hc⟩
          · exact Or.inl hc
          · exact Or.inr (Or.inr (Or.inr ⟨hh, hc⟩))
      · simp [POutcome.bind]
  · simp [POutcome.bind]

/-- `parse_data` can only panic, fail with `BadUtf8String` or
`InvalidTimezone`, or succeed: in particular the `EmptyString` branch is
unreachable, because `splitOnNul` always yields at least one segment. -/
theorem parse_data_classify (buf : List Nat) (hdr : Header) (path : List (List Nat)) :
    Tz.parse_data buf hdr path = .crash ∨
    Tz.parse_data buf hdr path = .err .BadUtf8String ∨
    Tz.parse_data buf hdr path = .err .InvalidTimezone ∨
    ∃ tz, Tz.parse_data buf hdr path = .ok tz := by
  unfold Tz.parse_data
  rcases sliceB_cases buf (HEADER_LEN + hdr.v2_header_start)
    (HEADER_LEN + hdr.v2_header_start + hdr.tzh_timecnt * 8) with h1 | h1 <;> rw [h1]
  · simp only [POutcome.bind]
    rcases sliceB_cases buf (HEADER_LEN + hdr.v2_header_start + hdr.tzh_timecnt * 8)
      (HEADER_LEN + hdr.v2_header_start + hdr.tzh_timecnt * 9) with h2 | h2 <;> rw [h2]
    · simp only [POutcome.bind]
      rcases sliceB_cases buf
        (HEADER_LEN + hdr.v2_header_start + hdr.tzh_timecnt * 9 + hdr.tzh_typecnt * 6
          + hdr.tzh_leapcnt * 12)
        (HEADER_LEN + hdr.v2_header_start + hdr.tzh_timecnt * 9 + hdr.tzh_typecnt * 6
          + hdr.tzh_leapcnt * 12 + hdr.tzh_charcnt) with h3 | h3 <;> rw [h3]
      · simp only [POutcome.bind]
        cases hU : utf8Decode ((buf.drop (HEADER_LEN + hdr.v2_header_start
            + hdr.tzh_timecnt * 9 + hdr.tzh_typecnt * 6 + hdr.tzh_leapcnt * 12)).take
            (HEADER_LEN + hdr.v2_header_start + hdr.tzh_timecnt * 9 + hdr.tzh_typecnt * 6
              + hdr.tzh_leapcnt * 12 + hdr.tzh_charcnt
              - (HEADER_LEN + hdr.v2_header_start + hdr.tzh_timecnt * 9
                + hdr.tzh_typecnt * 6 + hdr.tzh_leapcnt * 12))) with
        | none => exact Or.inr (Or.inl rfl)
        | some abbrs =>
          rcases sliceB_cases buf (HEADER_LEN + hdr.v2_header_start + hdr.tzh_timecnt * 9)
            (HEADER_LEN + hdr.v2_header_start + hdr.tzh_timecnt * 9 + hdr.tzh_typecnt * 6)
            with h4 | h4 <;> rw [h4]
          · simp only [POutcome.bind, splitOnNul_isEmpty_false, Bool.false_eq_true,
              if_false]
            split
            · exact Or.inr (Or.inr (Or.inl rfl))
            · exact Or.inr (Or.inr (Or.inr ⟨_, rfl⟩))
          · simp [POutcome.bind]
      · simp [POutcome.bind]
    · simp [POutcome.bind]
  · simp [POutcome.bind]

/-- What a successful `parse_data` produces, expressed with the pure byte-range
extractors: the timestamps, type indices, local-time-type records and
abbreviation list are all determined by the sliced ranges of the buffer. -/
theorem parse_data_ok_shape (buf : List Nat) (hdr : Header) (path : List (List Nat))
    (tz : Tz) (hd : Tz.parse_data buf hdr path = .ok tz) :
    utf8Decode (blobOf buf hdr) = some (abbrsOf buf hdr) ∧
    tz.tzh_timecnt_data
      = (chunksExact 8 (dataBytesOf buf hdr)).map (fun tt => toSigned 64 (readBE tt)) ∧
    tz.tzh_timecnt_indices = idxBytesOf buf hdr ∧
    tz.tzh_typecnt = (chunksExact 6 (ttiBytesOf buf hdr)).map (fun tti =>
      { tt_gmtoff := toSigned 32 (readBE (tti.take 4)), tt_isdst := tti.getD 4 0,
        tt_abbrind := abbrIndexOf (abbrsOf buf hdr) (tti.getD 5 0) : Ttinfo }) ∧
    tz.tz_abbr = (splitOnNul (abbrsOf buf hdr)).dropLast := by
  unfold Tz.parse_data at hd
  rcases sliceB_cases buf (HEADER_LEN + hdr.v2_header_start)
    (HEADER_LEN + hdr.v2_header_start + hdr.tzh_timecnt * 8) with h1 | h1 <;> rw [h1] at hd
  case inr => simp [POutcome.bind] at hd
  simp only [POutcome.bind] at hd
  have e1 : HEADER_LEN + hdr.v2_header_start + hdr.tzh_timecnt * 8
      - (HEADER_LEN + hdr.v2_header_start) = hdr.tzh_timecnt * 8 := by omega
  rw [e1] at hd
  rcases sliceB_cases buf (HEADER_LEN + hdr.v2_header_start + hdr.tzh_timecnt * 8)
    (HEADER_LEN + hdr.v2_header_start + hdr.tzh_timecnt * 9) with h2 | h2 <;> rw [h2] at hd
  case inr => simp [POutcome.bind] at hd
  simp only [POutcome.bind] at hd
  have e2 : HEADER_LEN + hdr.v2_header_start + hdr.tzh_timecnt * 9
      - (HEADER_LEN + hdr.v2_header_start + hdr.tzh_timecnt * 8) = hdr.tzh_timecnt := by
    omega
  rw [e2] at hd
  rcases sliceB_cases buf
    (HEADER_LEN + hdr.v2_header_start + hdr.tzh_timecnt * 9 + hdr.tzh_typecnt * 6
      + hdr.tzh_leapcnt * 12)
    (HEADER_LEN + hdr.v2_header_start + hdr.tzh_timecnt * 9 + hdr.tzh_typecnt * 6
      + hdr.tzh_leapcnt * 12 + hdr.tzh_charcnt) with h3 | h3 <;> rw [h3] at hd
  case inr => simp [POutcome.bind] at hd
  simp only [POutcome.bind] at hd
  rw [Nat.add_sub_cancel_left] at hd
  have hblob : (buf.drop (HEADER_LEN + hdr.v2_header_start + hdr.tzh_timecnt * 9
      + hdr.tzh_typecnt * 6 + hdr.tzh_leapcnt * 12)).take hdr.tzh_charcnt
      = blobOf buf hdr := rfl
  rw [hblob] at hd
  cases hU : utf8Decode (blobOf buf hdr) with
  | none => rw [hU] at hd; simp at hd
  | some abbrs =>
    rw [hU] at hd
    have habbrs : abbrsOf buf hdr = abbrs := by
      unfold abbrsOf; rw [hU]; rfl
    rcases sliceB_cases buf (HEADER_LEN + hdr.v2_header_start + hdr.tzh_timecnt * 9)
      (HEADER_LEN + hdr.v2_header_start + hdr.tzh_timecnt * 9 + hdr.tzh_typecnt * 6)
      with h4 | h4 <;> rw [h4] at hd
    case inr => simp [POutcome.bind] at hd
    simp only [POutcome.bind] at hd
    rw [Nat.add_sub_cancel_left] at hd
    rw [splitOnNul_isEmpty_false] at hd
    simp only [Bool.false_eq_true, if_false] at hd
    split at hd
    · cases hd
    · cases hd
      refine ⟨by rw [habbrs], rfl, rfl, ?_, by rw [habbrs]⟩
      rw [habbrs]
      rfl

/-- C8: a zone whose transition table is empty answers `Err(NoData)` for every
year argument; the result does not depend on the types or abbreviations (the
zone is otherwise arbitrary). -/
theorem transition_times_empty_nodata (tz : Tz) (nowYear : Int) (y : Option Int)
    (h : tz.tzh_timecnt_data = []) :
    tz.transition_times nowYear y = .err .NoData := by
  unfold Tz.transition_times
  rw [if_pos (by rw [h]; rfl)]

/-- C8 witness. -/
theorem transition_times_empty_nodata_witness :
    zEmpty.tzh_timecnt_data = [] ∧ zEmpty.transition_times 0 none = .err .NoData :=
  ⟨rfl, transition_times_empty_nodata zEmpty 0 none rfl⟩

/-- The imperative explicit-year scan equals its declarative description:
windowed indices in order, plus the last scan-order index before the window
(default 0). -/
theorem scanYear_eq (data : List Int) (yearbeg yearend : Int) :
    scanYear data yearbeg yearend =
      ((List.range data.length).filter
        (fun t => decide (yearbeg < data.getD t 0 ∧ data.getD t 0 < yearend)),
       ((List.range data.length).filter
        (fun t => decide (data.getD t 0 < yearbeg))).getLastD 0) := by
  unfold scanYear
  rw [foldScan (fun t => yearbeg < data.getD t 0 ∧ data.getD t 0 < yearend)
      (fun t => data.getD t 0 < yearbeg), List.nil_append]

/-- The imperative `None`-year scan equals filtering out the sentinel. -/
theorem scanAll_eq (data : List Int) :
    scanAll data =
      ((List.range data.length).filter (fun t => decide (data.getD t 0 ≠ SENTINEL)), 0) := by
  unfold scanAll
  rw [foldScanKeep (fun t => data.getD t 0 ≠ SENTINEL), List.nil_append]

/-- C1 counterexample: for year 1900 `zC1`'s window is empty and the nearest
preceding transition is index 0, whose timestamp is the sentinel `-2^59` —
outside chrono's representable range — so the program panics in
`Utc.timestamp` instead of returning the synthetic view the claim
asserts. -/
theorem transition_times_nearest_preceding_crash :
    yearWindow zC1 1900 = [] ∧ nearestPreceding zC1 1900 = 0 ∧
    zC1.transition_times 0 (some 1900) = .crash :=
  ⟨by decide, by decide, by decide⟩

/-- C1 amended: for an explicit non-zero year within chrono's supported year
range, `transition_times` produces exactly the views of the transitions
strictly inside the year window (strict on both sides: January 1,
00:00:00 UTC < instant < December 31, 00:00:00 UTC), in table order; when
the windowed set is empty it produces one synthetic view of the nearest
preceding transition — the last scan-order index whose instant is before the
year's start, defaulting to index 0.  View construction panics (on both
sides of the equation) when a selected transition's timestamp is outside
chrono's range; a year outside chrono's range panics in `Utc.ymd`. -/
theorem transition_times_explicit_year (tz : Tz) (nowYear y : Int)
    (hne : tz.tzh_timecnt_data.length ≠ 0) (hy : y ≠ 0)
    (hyr : CHRONO_MIN_YEAR ≤ y ∧ y ≤ CHRONO_MAX_YEAR) :
    tz.transition_times nowYear (some y) =
      (if yearWindow tz y = [] then
        (tz.viewAt (nearestPreceding tz y)).map (fun v => [v])
       else mapPO tz.viewAt (yearWindow tz y)) := by
  have hwd : (List.range tz.tzh_timecnt_data.length).filter
      (fun t => decide (tsOf y 1 1 < tz.tzh_timecnt_data.getD t 0 ∧
        tz.tzh_timecnt_data.getD t 0 < tsOf y 12 31)) = yearWindow tz y := rfl
  have hnd : ((List.range tz.tzh_timecnt_data.length).filter
      (fun t => decide (tz.tzh_timecnt_data.getD t 0 < tsOf y 1 1))).getLastD 0
      = nearestPreceding tz y := rfl
  have hb1 : utcYmdTimestamp y 1 1 = .ok (tsOf y 1 1) := by
    unfold utcYmdTimestamp
    rw [if_pos hyr]
  have hb2 : utcYmdTimestamp y 12 31 = .ok (tsOf y 12 31) := by
    unfold utcYmdTimestamp
    rw [if_pos hyr]
  simp only [Tz.transition_times]
  rw [if_neg hne, if_neg hy, hb1, hb2]
  simp only [POutcome.bind]
  rw [scanYear_eq, hwd, hnd]
  dsimp only
  by_cases hw : yearWindow tz y = []
  · rw [if_pos hw]
    rw [if_neg (show ¬((yearWindow tz y).length ≠ 0) from
      not_not_intro (List.length_eq_zero.mpr hw))]
  · rw [if_neg hw]
    rw [if_pos (show (yearWindow tz y).length ≠ 0 from
      fun h0 => hw (List.length_eq_zero.mp h0))]

/-- C1 amended witness. -/
theorem transition_times_explicit_year_witness :
    zSmall.tzh_timecnt_data.length ≠ 0 ∧ (1970 : Int) ≠ 0 ∧
    (CHRONO_MIN_YEAR ≤ (1970 : Int) ∧ (1970 : Int) ≤ CHRONO_MAX_YEAR) ∧
    zSmall.transition_times 0 (some 1970) =
      (if yearWindow zSmall 1970 = [] then
        (zSmall.viewAt (nearestPreceding zSmall 1970)).map (fun v => [v])
       else mapPO zSmall.viewAt (yearWindow zSmall 1970)) :=
  ⟨by decide, by decide, by decide,
   transition_times_explicit_year zSmall 0 1970 (by decide) (by decide) (by decide)⟩

/-- C4 counterexample: a transition whose raw timestamp is the minimum
representable 64-bit value (`i64::MIN = -2^63`) is NOT excluded by
`transition_times(None)`: the filter compares against the distinct sentinel
`-2^59 = -576460752303423488` only, so the `i64::MIN` transition survives
the scan (its index is kept), and the program then panics in
`Utc.timestamp(i64::MIN)` instead of returning the other views as the claim
asserts. -/
theorem transition_times_none_keeps_min :
    scanAll zMin.tzh_timecnt_data = ([0], 0) ∧
    zMin.transition_times 0 none = .crash :=
  ⟨by decide, by decide⟩

/-- C4 amended: `transition_times(None)` keeps every transition whose raw
timestamp differs from the sentinel `-576460752303423488` (`0xF8 << 56`, not
`i64::MIN`), in original table order; when every transition is filtered out,
a single synthetic view of transition index 0 is attempted instead of an
empty list.  View construction panics (on both sides of the equation) when a
kept timestamp — `i64::MIN` included, or the sentinel itself in the
all-filtered fallback — is outside chrono's representable range. -/
theorem transition_times_none_sentinel (tz : Tz) (nowYear : Int)
    (hne : tz.tzh_timecnt_data.length ≠ 0) :
    tz.transition_times nowYear none =
      (if nonSentinel tz = [] then (tz.viewAt 0).map (fun v => [v])
       else mapPO tz.viewAt (nonSentinel tz)) := by
  have hsd : (List.range tz.tzh_timecnt_data.length).filter
      (fun t => decide (tz.tzh_timecnt_data.getD t 0 ≠ SENTINEL)) = nonSentinel tz := rfl
  simp only [Tz.transition_times, POutcome.bind]
  rw [if_neg hne, scanAll_eq, hsd]
  dsimp only
  by_cases hw : nonSentinel tz = []
  · rw [if_pos hw]
    rw [if_neg (show ¬((nonSentinel tz).length ≠ 0) from
      not_not_intro (List.length_eq_zero.mpr hw))]
  · rw [if_neg hw]
    rw [if_pos (show (nonSentinel tz).length ≠ 0 from
      fun h0 => hw (List.length_eq_zero.mp h0))]

/-- C4 amended witness. -/
theorem transition_times_none_sentinel_witness :
    zSent.tzh_timecnt_data.length ≠ 0 ∧
    zSent.transition_times 0 none =
      (if nonSentinel zSent = [] then (zSent.viewAt 0).map (fun v => [v])
       else mapPO zSent.viewAt (nonSentinel zSent)) :=
  ⟨by decide, transition_times_none_sentinel zSent 0 (by decide)⟩

/-- `as i32` is the identity on values strictly within ±86400 (well inside
the `i32` range). -/
theorem asI32_small (x : Int) (hlo : -86400 < x) (hhi : x < 86400) : asI32 x = x := by
  unfold asI32
  have h1 : (0 : Int) ≤ x + 2147483648 := by omega
  have h2 : x + 2147483648 < 4294967296 := by omega
  rw [Int.emod_eq_of_lt h1 h2]
  omega

/-- C2 counterexample: `zBigOff`'s current-year query yields exactly two
views, the first carrying UTC offset 90000 s (the format allows offsets up
to ±93600 s), and `now = 150` lies strictly between the two times; the claim
asserts a resolved state carrying that offset, but `zoneinfo` panics in
`FixedOffset::east` instead. -/
theorem zoneinfo_two_transitions_bigoffset_crash :
    zBigOff.transition_times 1970 (some 0) =
      .ok [⟨100, 90000, true, strCp "BIG"⟩, ⟨200, 3600, false, strCp "STD"⟩] ∧
    ((100 : Int) < 150 ∧ (150 : Int) < 200) ∧
    zBigOff.zoneinfo 150 1970 = .crash :=
  ⟨by decide, by decide, by decide⟩

/-- C2 amended: when the current-year query yields exactly two views whose
offsets lie strictly within ±86400 seconds (outside that range
`FixedOffset::east` panics), `zoneinfo` reports `dst_period` true iff `now`
is strictly between the two times, takes `dst_offset` from the first view
and `raw_offset` from the second, the active offset and abbreviation from
the first view during DST and from the second otherwise, and
`dst_from`/`dst_until` from the two times. -/
theorem zoneinfo_two_transitions (tz : Tz) (now nowYear : Int) (t0 t1 : TransitionTime)
    (h : tz.transition_times nowYear (some 0) = .ok [t0, t1])
    (h0 : -86400 < t0.utc_offset ∧ t0.utc_offset < 86400)
    (h1 : -86400 < t1.utc_offset ∧ t1.utc_offset < 86400) :
    tz.zoneinfo now nowYear =
      .ok { timezone := tz.name, utc_datetime := now,
            dst_from := some t0.time, dst_until := some t1.time,
            dst_period := decide (t0.time < now ∧ now < t1.time),
            raw_offset := t1.utc_offset, dst_offset := t0.utc_offset,
            utc_offset := if t0.time < now ∧ now < t1.time then t0.utc_offset
              else t1.utc_offset,
            abbreviation := if t0.time < now ∧ now < t1.time then t0.abbreviation
              else t1.abbreviation } := by
  unfold Tz.zoneinfo
  rw [h]
  show Tz.zoneinfoFrom tz now [t0, t1] = _
  unfold Tz.zoneinfoFrom
  have ha0 : asI32 t0.utc_offset = t0.utc_offset := asI32_small _ h0.1 h0.2
  have ha1 : asI32 t1.utc_offset = t1.utc_offset := asI32_small _ h1.1 h1.2
  by_cases hd : t0.time < now ∧ now < t1.time
  · simp [hd, ha0, fixedOffsetEast, POutcome.bind, h0.1, h0.2]
  · simp [hd, ha1, fixedOffsetEast, POutcome.bind, h1.1, h1.2]

/-- C2 amended witness. -/
theorem zoneinfo_two_transitions_witness :
    zSmall.transition_times 1970 (some 0) =
      .ok [⟨100, 7200, true, strCp "CEST"⟩, ⟨200, 3600, false, strCp "CET"⟩] ∧
    ((-86400 : Int) < 7200 ∧ (7200 : Int) < 86400) ∧
    ((-86400 : Int) < 3600 ∧ (3600 : Int) < 86400) ∧
    zSmall.zoneinfo 150 1970 =
      .ok { timezone := zSmall.name, utc_datetime := 150,
            dst_from := some ((⟨100, 7200, true, strCp "CEST"⟩ : TransitionTime).time),
            dst_until := some ((⟨200, 3600, false, strCp "CET"⟩ : TransitionTime).time),
            dst_period := decide ((100 : Int) < 150 ∧ (150 : Int) < 200),
            raw_offset := 3600, dst_offset := 7200,
            utc_offset := if (100 : Int) < 150 ∧ (150 : Int) < 200 then 7200 else 3600,
            abbreviation := if (100 : Int) < 150 ∧ (150 : Int) < 200 then strCp "CEST"
              else strCp "CET" } :=
  ⟨by decide, by decide, by decide, zoneinfo_two_transitions zSmall 150 1970
    ⟨100, 7200, true, strCp "CEST"⟩ ⟨200, 3600, false, strCp "CET"⟩ (by decide)
    (by decide) (by decide)⟩

/-- C3 counterexample: a buffer with valid magic whose version byte is 51
(ASCII '3', the version-3 64-bit layout) is rejected with
`UnsupportedFormat`, contradicting the claim that version-3 buffers pass the
version check. -/
theorem parse_header_v3_rejected :
    Tz.parse_header [84, 90, 105, 102, 51] = .err .UnsupportedFormat := by decide

/-- C3 amended: after a valid magic, only version byte 50 (ASCII '2') passes:
any other version byte — 49 ('1', the 32-bit-only layout) and 51 ('3', the
version-3 layout) alike — fails with `UnsupportedFormat`; and when the byte
is 50 the decoder never reports `UnsupportedFormat`. -/
theorem parse_header_version_only_v2 (buf : List Nat) (h5 : 5 ≤ buf.length)
    (hm : buf.take 4 = [0x54, 0x5A, 0x69, 0x66]) :
    (buf.getD 4 0 ≠ 50 → Tz.parse_header buf = .err .UnsupportedFormat) ∧
    (buf.getD 4 0 = 50 → Tz.parse_header buf ≠ .err .UnsupportedFormat) := by
  have hs : sliceB buf 0 4 = .ok [0x54, 0x5A, 0x69, 0x66] := by
    unfold sliceB
    rw [if_pos ⟨by omega, by omega⟩, List.drop_zero, Nat.sub_zero, hm]
  have hi : idx buf 4 = .ok (buf.getD 4 0) := by
    unfold idx
    rw [if_pos (by omega)]
  constructor
  · intro hv
    unfold Tz.parse_header
    rw [hs]
    simp only [POutcome.bind]
    rw [if_neg (by decide), hi]
    simp only [POutcome.bind]
    rw [if_pos hv]
  · intro hv
    unfold Tz.parse_header
    rw [hs]
    simp only [POutcome.bind]
    rw [if_neg (by decide), hi]
    simp only [POutcome.bind]
    rw [if_neg (not_not_intro hv)]
    rcases readHeaderCounts_classify buf with hc | ⟨hh, hc⟩ <;> rw [hc] <;> simp

/-- C3 amended witness (version byte 49, the 32-bit-only V1 layout). -/
theorem parse_header_version_only_v2_witness :
    5 ≤ ([84, 90, 105, 102, 49] : List Nat).length ∧
    ([84, 90, 105, 102, 49] : List Nat).take 4 = [0x54, 0x5A, 0x69, 0x66] ∧
    Tz.parse_header [84, 90, 105, 102, 49] = .err .UnsupportedFormat :=
  ⟨by decide, by decide,
   (parse_header_version_only_v2 [84, 90, 105, 102, 49] (by decide) (by decide)).1
     (by decide)⟩

/-- C5 counterexample: decoding the empty buffer panics on an out-of-range
slice; it does not return a parse error (there is no BoundsError variant). -/
theorem decode_nil_crashes : Tz.decode [] [] = .crash := by decide

/-- The twelve count reads all lie at or beyond offset 0x14, and the sixth
needs bytes up to offset 44, so a buffer shorter than 44 bytes panics the
count-reading tail. -/
theorem readHeaderCounts_crash_of_short (buf : List Nat) (h : buf.length < 44) :
    readHeaderCounts buf = .crash := by
  unfold readHeaderCounts
  rcases readI32usize_cases buf 0x14 with ⟨n1, h1⟩ | h1 <;> rw [h1] <;>
    simp only [POutcome.bind]
  rcases readI32usize_cases buf 0x18 with ⟨n2, h2⟩ | h2 <;> rw [h2] <;>
    simp only [POutcome.bind]
  rcases readI32usize_cases buf 0x1C with ⟨n3, h3⟩ | h3 <;> rw [h3] <;>
    simp only [POutcome.bind]
  rcases readI32usize_cases buf 0x20 with ⟨n4, h4⟩ | h4 <;> rw [h4] <;>
    simp only [POutcome.bind]
  rcases readI32usize_cases buf 0x24 with ⟨n5, h5⟩ | h5 <;> rw [h5] <;>
    simp only [POutcome.bind]
  rw [readI32usize_crash_of_short buf 0x28 (by omega)]

/-- C5 amended: decoding is not total and reports no bounds error: a buffer
shorter than the 44-byte header never decodes successfully — it panics on an
out-of-range slice or fails with a format error — and with a valid magic and
version-'2' prefix it panics outright.  The error enum has no BoundsError;
truncation is a panic, not a reported parse error. -/
theorem parse_header_short_never_ok (buf : List Nat) (h : buf.length < 44) :
    (Tz.parse_header buf).isOk = false ∧
    (buf.take 4 = [0x54, 0x5A, 0x69, 0x66] → buf.getD 4 0 = 50 → 5 ≤ buf.length →
      Tz.parse_header buf = .crash) := by
  have hrc := readHeaderCounts_crash_of_short buf h
  constructor
  · cases hok : (Tz.parse_header buf).isOk
    · rfl
    · exfalso
      unfold Tz.parse_header at hok
      obtain ⟨mb, hmb, hok2⟩ := bind_isOk _ _ hok
      by_cases hmg : readBE mb ≠ MAGIC
      · rw [if_pos hmg] at hok2
        simp [POutcome.isOk] at hok2
      · rw [if_neg hmg] at hok2
        obtain ⟨v, hvv, hok3⟩ := bind_isOk _ _ hok2
        by_cases hv50 : v ≠ 50
        · rw [if_pos hv50] at hok3
          simp [POutcome.isOk] at hok3
        · rw [if_neg hv50, hrc] at hok3
          simp [POutcome.isOk] at hok3
  · intro hm hv h5
    unfold Tz.parse_header
    have hs : sliceB buf 0 4 = .ok [0x54, 0x5A, 0x69, 0x66] := by
      unfold sliceB
      rw [if_pos ⟨by omega, by omega⟩, List.drop_zero, Nat.sub_zero, hm]
    rw [hs]
    simp only [POutcome.bind]
    rw [if_neg (by decide)]
    have hi : idx buf 4 = .ok 50 := by
      unfold idx
      rw [if_pos (by omega), hv]
    rw [hi]
    simp only [POutcome.bind]
    rw [if_neg (by simp)]
    exact hrc

/-- C5 amended witness. -/
theorem parse_header_short_never_ok_witness :
    ([84, 90, 105, 102, 50] : List Nat).length < 44 ∧
    (Tz.parse_header [84, 90, 105, 102, 50]).isOk = false ∧
    Tz.parse_header [84, 90, 105, 102, 50] = .crash :=
  ⟨by decide, (parse_header_short_never_ok [84, 90, 105, 102, 50] (by decide)).1,
   (parse_header_short_never_ok [84, 90, 105, 102, 50] (by decide)).2
     (by decide) (by decide) (by decide)⟩

/-- C7 counterexample: a buffer whose abbreviation blob is "AB" — not
NUL-terminated — decodes successfully: the trailing segment is silently
popped (leaving an empty abbreviation list), instead of failing with
`EmptyString` as claimed. -/
theorem decode_no_trailing_nul_ok :
    Tz.decode c7buf cpath =
      .ok { tzh_timecnt_data := [0], tzh_timecnt_indices := [0],
            tzh_typecnt := [⟨0, 0, 0⟩], tz_abbr := [], name := strCp "Paris" } := by
  decide

/-- C7 amended: the decoder splits the blob on NUL bytes and unconditionally
discards the final segment (the empty string for a NUL-terminated blob, the
trailing unterminated abbreviation otherwise); splitting always produces at
least one segment, so the pop never finds nothing and `EmptyString` is
unreachable for every buffer and path. -/
theorem decode_never_emptystring (buf : List Nat) (path : List (List Nat))
    (abbrs : List Nat) :
    isErrEmptyString (Tz.decode buf path) = false ∧
    (splitOnNul abbrs).isEmpty = false := by
  refine ⟨?_, splitOnNul_isEmpty_false abbrs⟩
  unfold Tz.decode
  rcases parse_header_classify buf with hc | hc | hc | ⟨hh, hc⟩ <;> rw [hc] <;>
    simp only [POutcome.bind]
  · rfl
  · rfl
  · rfl
  · rcases parse_data_classify buf hh path with hd | hd | hd | ⟨tz, hd⟩ <;>
      rw [hd] <;> rfl

/-- C6 counterexample: `c6buf`'s blob is C3 A9 00 41 00 ("é\0A\0") and its
type record stores raw abbreviation byte-offset 2.  The decoder stores index
1 (one NUL among the first two decoded characters 'é', NUL), but the number
of NUL bytes strictly before byte offset 2 is 0: the translation counts
characters, not bytes, contradicting the claim. -/
theorem decode_abbrind_char_not_byte :
    Tz.parse_header c6buf = .ok c6hdr ∧
    blobOf c6buf c6hdr = c6blob ∧
    (Tz.decode c6buf cpath).map (fun z => z.tzh_typecnt.map Ttinfo.tt_abbrind)
      = .ok [1] ∧
    (c6blob.take 2).count 0 = 0 :=
  ⟨by decide, by decide, by decide, by decide⟩

/-- C6 amended: each local-time-type's raw abbreviation byte-offset is
translated into the count of NUL characters among the first `offset` decoded
characters of the blob (cast to `u8`); when the blob is pure ASCII —
characters and bytes then coincide — every stored index equals the number of
NUL bytes occurring strictly before that byte offset, as the claim states. -/
theorem abbr_index_ascii (buf : List Nat) (hdr : Header) (path : List (List Nat))
    (tz : Tz) (hd : Tz.parse_data buf hdr path = .ok tz)
    (hb : ∀ b ∈ blobOf buf hdr, b < 128) :
    tz.tzh_typecnt.map Ttinfo.tt_abbrind
      = (chunksExact 6 (ttiBytesOf buf hdr)).map
          (fun tti => ((blobOf buf hdr).take (tti.getD 5 0)).count 0 % 256) := by
  obtain ⟨hU, _, _, hty, _⟩ := parse_data_ok_shape buf hdr path tz hd
  have hblob : abbrsOf buf hdr = blobOf buf hdr := by
    have h2 := utf8Decode_ascii (blobOf buf hdr) hb
    rw [hU] at h2
    exact Option.some_inj.mp h2
  rw [hty, List.map_map]
  congr 1
  funext tti
  simp [Function.comp, abbrIndexOf, hblob]

/-- C6 amended witness (ASCII blob "A\0", raw byte-offset 2). -/
theorem abbr_index_ascii_witness :
    Tz.parse_data c9buf c9hdr cpath = .ok c9tz ∧
    (∀ b ∈ blobOf c9buf c9hdr, b < 128) ∧
    c9tz.tzh_typecnt.map Ttinfo.tt_abbrind
      = (chunksExact 6 (ttiBytesOf c9buf c9hdr)).map
          (fun tti => ((blobOf c9buf c9hdr).take (tti.getD 5 0)).count 0 % 256) :=
  ⟨by decide, by decide, abbr_index_ascii c9buf c9hdr cpath c9tz (by decide) (by decide)⟩

/-- C9 counterexample: `c9buf` decodes successfully into a zone whose only
local-time-type stores abbreviation index 1 against an abbreviation list of
length 1, and whose only transition stores type index 7 against a type list
of length 1: both claimed strict bounds fail; the decoder validates
neither. -/
theorem decode_bounds_violated :
    (Tz.decode c9buf cpath).map tzBoundsOk = .ok false := by decide

/-- C9 amended: for every successfully decoded buffer of genuine bytes, each
local-time-type's abbreviation index is at most the abbreviation-list length
(equality is reachable, so the strict bound fails), and each transition type
index is at most 255 — the only bound the byte format imposes; the decoder
enforces nothing stricter. -/
theorem decode_loose_bounds (buf : List Nat) (path : List (List Nat)) (tz : Tz)
    (hb : ∀ b ∈ buf, b < 256)
    (hd : Tz.decode buf path = .ok tz) :
    (∀ t ∈ tz.tzh_typecnt, t.tt_abbrind ≤ tz.tz_abbr.length) ∧
    (∀ i ∈ tz.tzh_timecnt_indices, i < 256) := by
  unfold Tz.decode at hd
  rcases parse_header_classify buf with hc | hc | hc | ⟨hdr, hc⟩ <;> rw [hc] at hd <;>
    simp only [POutcome.bind] at hd
  · simp at hd
  · simp at hd
  · simp at hd
  obtain ⟨hU, _, hidx, hty, habbr⟩ := parse_data_ok_shape buf hdr path tz hd
  constructor
  · intro t ht
    rw [hty] at ht
    obtain ⟨tti, htti, rfl⟩ := List.mem_map.mp ht
    show abbrIndexOf (abbrsOf buf hdr) (tti.getD 5 0) ≤ tz.tz_abbr.length
    rw [habbr]
    unfold abbrIndexOf
    have h1 : ((abbrsOf buf hdr).take (tti.getD 5 0)).count 0 % 256
        ≤ ((abbrsOf buf hdr).take (tti.getD 5 0)).count 0 := Nat.mod_le _ _
    have h2 : ((abbrsOf buf hdr).take (tti.getD 5 0)).count 0
        ≤ (abbrsOf buf hdr).count 0 := (List.take_sublist _ _).count_le 0
    have h3 : ((splitOnNul (abbrsOf buf hdr)).dropLast).length
        = (abbrsOf buf hdr).count 0 := by
      rw [List.length_dropLast, splitOnNul_length]
      omega
    omega
  · intro i hi
    rw [hidx] at hi
    unfold idxBytesOf at hi
    exact hb i (List.drop_subset _ _ (List.take_subset _ _ hi))

/-- C9 amended witness. -/
theorem decode_loose_bounds_witness :
    (∀ b ∈ c9buf, b < 256) ∧ Tz.decode c9buf cpath = .ok c9tz ∧
    (∀ t ∈ c9tz.tzh_typecnt, t.tt_abbrind ≤ c9tz.tz_abbr.length) ∧
    (∀ i ∈ c9tz.tzh_timecnt_indices, i < 256) :=
  ⟨by decide, by decide,
   (decode_loose_bounds c9buf cpath c9tz (by decide) (by decide)).1,
   (decode_loose_bounds c9buf cpath c9tz (by decide) (by decide)).2⟩
